import Mathlib

/-!
Verification of the `mygmm` GMM estimator.

The development shallowly embeds the two source files of the repository:

* `src/mygmm/hac_function.py` — the HAC long-run covariance estimator `hac`;
* `src/gmm.py` — the `GMM` estimation class (`__init__`, `gmmobjective`,
  `weights`, `varest`, `gmmest`).

Conventions of the embedding:

* All Python floats are modelled as exact real numbers `ℝ`; numpy arrays are
  modelled as total functions `ℕ → ℕ → ℝ` whose dimensions travel separately,
  mirroring numpy shapes.
* Python `assert` statements and `raise` become `Except` error returns; the
  error kinds are named after the specification's error taxonomy
  (`ConfigurationError`, `DimensionError`, `UnsupportedKernelError`,
  `InvariantViolation`), each corresponding to one raise site in the source.
* numpy's in-place `vectors -= vectors.mean(0)` inside `hac` is modelled by
  state passing: `hac` returns the final contents of the caller's buffer
  alongside the covariance matrix.
* External collaborators (the problem-specific moment model, `scipy.linalg.pinv`,
  `scipy.stats.chi2.cdf`, and `scipy.optimize.minimize`) are parameters of the
  model, bundled in `Externals`.  The minimizer is a black box mapping an
  objective and a starting point to an argmin; per scipy's `OptimizeResult`
  contract, the reported `res.fun` is the objective evaluated at `res.x`.
-/

set_option maxHeartbeats 1000000

/-- Matrices are total real-valued functions of two natural indices; the
dimensions of interest are carried separately, as numpy shapes would be. -/
abbrev Mat : Type := ℕ → ℕ → ℝ

/-- Error kinds of the embedded program.  Each constructor corresponds to one
raise site in the source: the three `assert`s of `GMM.__init__`
(gmm.py lines 29, 32, 36), the `NotImplementedError` of `hac`
(hac_function.py line 77), the `assert` of `GMM.gmmobjective` (gmm.py
line 164), and the `AttributeError` that `self.res.fun` would raise when no
optimization step ever ran (gmm.py line 132 with `self.res is None`). -/
inductive GMMError where
  | observationsError
  | dimensionError
  | configurationError
  | unsupportedKernel
  | invariantViolation
  | attributeError
  deriving DecidableEq

/-! ## hac_function.py -/

/-- Column mean of the first `T` rows: numpy `vectors.mean(0)` at column `j`. -/
noncomputable def colMean (T : ℕ) (v : Mat) (j : ℕ) : ℝ :=
  (∑ t ∈ Finset.range T, v t j) / T

/-- hac_function.py line 43: `vectors -= vectors.mean(0)`, the column-demeaned
matrix that replaces the contents of the caller's buffer. -/
noncomputable def demean (T : ℕ) (v : Mat) : Mat :=
  fun t j => v t j - colMean T v j

/-- hac_function.py line 45: `covar = vectors.T.dot(vectors) / length`. -/
noncomputable def gamma0 (T : ℕ) (v : Mat) : Mat :=
  fun i j => (∑ t ∈ Finset.range T, v t i * v t j) / T

/-- hac_function.py line 80:
`gamma = vectors[:-lag-1].T.dot(vectors[lag+1:]) / length`.
Both slices have `T - (lag+1)` rows (empty when `lag + 1 ≥ T`, matching the
truncated natural subtraction), and row `t` of the first is paired with row
`t + lag + 1` of the second. -/
noncomputable def gammaLag (T : ℕ) (v : Mat) (lag : ℕ) : Mat :=
  fun i j => (∑ t ∈ Finset.range (T - (lag + 1)), v t i * v (t + (lag + 1)) j) / T

/-- The kernel-weight dispatch of hac_function.py lines 49-77, for one value of
`lag`.  An unrecognized kernel name raises `NotImplementedError`, modelled by
`GMMError.unsupportedKernel`.  (Python would divide by zero in `d_coef` when
`band = 0`, but the loop body never executes then; real division by zero is 0
here, which is harmless for the same reason.) -/
noncomputable def kernelWeight (kernel : String) (band lag : ℕ) : Except GMMError ℝ :=
  let a : ℝ := ((lag : ℝ) + 1) / ((band : ℝ) + 1)
  let d : ℝ := ((lag : ℝ) + 1) / (band : ℝ)
  let m : ℝ := 6 * Real.pi * d / 5
  if kernel = "SU" then Except.ok 0
  else if kernel = "Bartlett" then
    Except.ok (if a ≤ 1 then 1 - a else 0)
  else if kernel = "Parzen" then
    Except.ok (if a ≤ 1 / 2 then 1 - 6 * d ^ 2 * (1 - a)
      else if a ≤ 1 then 2 * (1 - a) ^ 3 else 0)
  else if kernel = "Quadratic" then
    Except.ok (25 / (12 * (d * Real.pi) ^ 2) * (Real.sin m / m - Real.cos m))
  else Except.error GMMError.unsupportedKernel

/-- The accumulation loop of `hac` (hac_function.py lines 47-82): starting from
`covar = Γ0`, process lags `0 .. n-1`, adding `w(lag) * (Γ_lag + Γ_lagᵀ)`; a
raise inside the loop propagates out. -/
noncomputable def hacSum (T : ℕ) (kernel : String) (band : ℕ) (v : Mat) :
    ℕ → Except GMMError Mat
  | 0 => Except.ok (gamma0 T v)
  | n + 1 =>
    match hacSum T kernel band v n with
    | Except.error e => Except.error e
    | Except.ok prev =>
      match kernelWeight kernel band n with
      | Except.error e => Except.error e
      | Except.ok w =>
        Except.ok (fun i j => prev i j + w * (gammaLag T v n i j + gammaLag T v n j i))

/-- hac_function.py lines 38-39 and gmm.py line 56: `int(length**(1/3))`, the
floor of the real cube root of the sample size (Python `int` truncates toward
zero, which is the floor for a nonnegative value). -/
noncomputable def defaultBand (T : ℕ) : ℕ :=
  Nat.floor ((T : ℝ) ^ ((1 : ℝ) / 3))

/-- Function `hac`, hac_function.py lines 17-84.  `band = none` models the absent
`band=None` argument.  The first component of a successful result is the final
contents of the caller's `vectors` buffer (numpy's in-place demeaning), the
second is the returned covariance matrix. -/
noncomputable def hac (T : ℕ) (vectors : Mat) (kernel : String) (band : Option ℕ) :
    Except GMMError (Mat × Mat) :=
  let b := band.getD (defaultBand T)
  let dv := demean T vectors
  match hacSum T kernel b dv b with
  | Except.error e => Except.error e
  | Except.ok covar => Except.ok (dv, covar)

/-! ## gmm.py: data model -/

/-- Output of the problem-specific moment method (`GMM.moment`): `g` is `T × q`
(`T = g.shape[0]`), `dg` is `q × k` (`(q, k) = dg.shape`), per the contract in
the docstring of gmm.py lines 68-87. -/
structure MomentValue where
  T : ℕ
  q : ℕ
  k : ℕ
  g : Mat
  dg : Mat

/-- External collaborators of the estimator: the moment model supplied by a
subclass, `scipy.linalg.pinv`, `scipy.stats.chi2.cdf`, and the
`scipy.optimize.minimize` black box returning the argmin of the objective. -/
structure Externals where
  moment : List ℝ → MomentValue
  pinv : Mat → Mat
  chi2cdf : ℝ → ℤ → ℝ
  minimizer : (List ℝ → ℝ) → List ℝ → List ℝ

/-- numpy `eye(q)` as a total matrix: identity on the leading `q × q` block,
zero outside. -/
noncomputable def eyeMat (q : ℕ) : Mat :=
  fun i j => if i = j ∧ i < q then 1 else 0

/-- Instance attributes of class `GMM` set by `__init__` (gmm.py lines 18-66).
The result attributes `J`, `se`, `t`, `pval` that `gmmest` assigns are instead
delivered in an immutable `EstimationResult`; `res` keeps the pair
`(res.x, res.fun)` of the last optimizer call (`none` models the initial
`self.res = None`).  The optimizer options `maxiter` and `disp` are carried for
fidelity but play no role in the embedded semantics. -/
structure GMM where
  T : ℕ
  q : ℕ
  k : ℕ
  df : ℤ
  theta : List ℝ
  W : Mat
  iter : ℕ
  method : String
  disp : Bool
  use_jacob : Bool
  kernel : String
  band : ℕ
  res : Option (List ℝ × ℝ)

/-- Method `GMM.__init__`, gmm.py lines 18-66.  The three `assert`s become error
returns, in source order: `T > 0`, then the Jacobian column count against the
parameter length, then `df = q - k > 0` (integer subtraction). -/
noncomputable def gmmInit (p : Externals) (theta : List ℝ) : Except GMMError GMM :=
  let mv := p.moment theta
  if 0 < mv.T then
    if mv.k = theta.length then
      if 0 < (mv.q : ℤ) - (mv.k : ℤ) then
        Except.ok
          { T := mv.T, q := mv.q, k := mv.k, df := (mv.q : ℤ) - (mv.k : ℤ),
            theta := theta, W := eyeMat mv.q, iter := 2, method := "BFGS",
            disp := true, use_jacob := true, kernel := "Bartlett",
            band := defaultBand mv.T, res := none }
      else Except.error GMMError.configurationError
    else Except.error GMMError.dimensionError
  else Except.error GMMError.observationsError

/-! ## gmm.py: objective, weights, variance -/

/-- gmm.py line 161: `g = g.mean(0).flatten()`, the mean over the rows of the
moment matrix, a `q`-vector. -/
noncomputable def bbar (p : Externals) (theta : List ℝ) : ℕ → ℝ :=
  fun j =>
    let mv := p.moment theta
    (∑ t ∈ Finset.range mv.T, mv.g t j) / mv.T

/-- gmm.py line 163: `f = float(g.dot(self.W).dot(g.T))`, the quadratic form of
the mean moments under `W`. -/
noncomputable def objVal (p : Externals) (W : Mat) (theta : List ℝ) : ℝ :=
  let mv := p.moment theta
  ∑ i ∈ Finset.range mv.q, ∑ j ∈ Finset.range mv.q,
    bbar p theta i * W i j * bbar p theta j

/-- gmm.py line 168: `df = 2 * g.dot(self.W).dot(dg).flatten()`, the gradient
`k`-vector of the quadratic form with `W` held fixed. -/
noncomputable def gradVec (p : Externals) (W : Mat) (theta : List ℝ) : ℕ → ℝ :=
  fun j =>
    let mv := p.moment theta
    2 * ∑ l ∈ Finset.range mv.q,
      (∑ i ∈ Finset.range mv.q, bbar p theta i * W i l) * mv.dg l j

/-- Method `GMM.gmmobjective`, gmm.py lines 140-172.  The `assert f >= 0` of line 164
becomes an `InvariantViolation` error; otherwise the value is returned together
with the gradient when `self.use_jacob` is set, and alone when it is not. -/
noncomputable def gmmobjective (p : Externals) (s : GMM) (theta : List ℝ) :
    Except GMMError (ℝ × Option (ℕ → ℝ)) :=
  let f := objVal p s.W theta
  if f < 0 then Except.error GMMError.invariantViolation
  else if s.use_jacob then Except.ok (f, some (gradVec p s.W theta))
  else Except.ok (f, none)

/-- Method `GMM.weights`, gmm.py lines 174-197: evaluate the moment model, feed `g` to
`hac` with the configured kernel and bandwidth, and return
`linalg.pinv(S)`.  A raise inside `hac` propagates. -/
noncomputable def weights (p : Externals) (s : GMM) (theta : List ℝ) :
    Except GMMError Mat :=
  let mv := p.moment theta
  match hac mv.T mv.g s.kernel (some s.band) with
  | Except.error e => Except.error e
  | Except.ok r => Except.ok (p.pinv r.2)

/-- The `k × k` product `dg.T.dot(S).dot(dg)` of gmm.py line 220. -/
noncomputable def dgtSdg (q : ℕ) (dg S : Mat) : Mat :=
  fun a b => ∑ l ∈ Finset.range q, ∑ m ∈ Finset.range q, dg l a * S l m * dg m b

/-- Method `GMM.varest`, gmm.py lines 199-222:
`V = linalg.pinv(dg.T.dot(S).dot(dg)) / self.T` with `S = self.weights(theta)`. -/
noncomputable def varest (p : Externals) (s : GMM) (theta : List ℝ) :
    Except GMMError Mat :=
  let mv := p.moment theta
  match weights p s theta with
  | Except.error e => Except.error e
  | Except.ok S => Except.ok (fun a b => p.pinv (dgtSdg mv.q mv.dg S) a b / (s.T : ℝ))

/-! ## gmm.py: the multi-step estimation loop -/

/-- The result record assembled at the end of `gmmest` (gmm.py lines 129-138);
the source stores these on `self`, the embedding returns them. -/
structure EstimationResult where
  theta : List ℝ
  J : ℝ
  pval : ℝ
  se : ℕ → ℝ
  t : List ℝ

/-- One iteration of the loop body of `GMM.gmmest` (gmm.py lines 113-127) at
loop index `i`: after the first step, replace `self.W` by the optimal weighting
matrix at the current estimate; minimize the objective under that `W` starting
from the current `theta`; record the optimizer result and replace `theta` by
the argmin.  Per scipy's contract, the recorded `res.fun` is the objective
value at the argmin. -/
noncomputable def gmmStep (p : Externals) (s : GMM) (i : ℕ) : Except GMMError GMM :=
  match (if 0 < i then weights p s s.theta else Except.ok s.W) with
  | Except.error e => Except.error e
  | Except.ok W =>
    let x := p.minimizer (objVal p W) s.theta
    Except.ok { s with W := W, theta := x, res := some (x, objVal p W x) }

/-- The loop `for i in range(self.iter)` of `GMM.gmmest`: `gmmLoop p s n` is
the state after loop indices `0 .. n-1`. -/
noncomputable def gmmLoop (p : Externals) (s : GMM) : ℕ → Except GMMError GMM
  | 0 => Except.ok s
  | n + 1 =>
    match gmmLoop p s n with
    | Except.error e => Except.error e
    | Except.ok s2 => gmmStep p s2 n

/-- Method `GMM.gmmest`, gmm.py lines 107-138: run the loop for `self.iter` steps,
then compute `V = self.varest(self.theta)`, `J = self.res.fun * self.T`,
`pval = 1 - chi2.cdf(J, self.df)`, `se = diag(V)**.5` and `t = theta / se`
element-wise.  When no step ever ran, `self.res` is still `None` and the
attribute access `self.res.fun` raises. -/
noncomputable def gmmest (p : Externals) (s0 : GMM) : Except GMMError EstimationResult :=
  match gmmLoop p s0 s0.iter with
  | Except.error e => Except.error e
  | Except.ok s =>
    match varest p s s.theta with
    | Except.error e => Except.error e
    | Except.ok V =>
      match s.res with
      | none => Except.error GMMError.attributeError
      | some r =>
        let J := r.2 * (s.T : ℝ)
        let se : ℕ → ℝ := fun j => Real.sqrt (V j j)
        Except.ok { theta := s.theta, J := J, pval := 1 - p.chi2cdf J s.df,
                    se := se, t := s.theta.mapIdx (fun j x => x / se j) }

/-! ## Specification-side definitions

These follow the wording of the specification (spec.md §4.2, §4.3, §4.5, §4.6)
rather than the source; the refinement theorems below compare the embedded
source against them. -/

/-- Specification-side kernel weight `w(l)` as claim C2 states it: `0` for
`SU`; `1 - a` for `Bartlett` when `a ≤ 1` else `0`, with `a = (l+1)/(b+1)`;
the Parzen piecewise cubic in `a` and `d = (l+1)/b`; and
`25/(12 (d π)²) (sin m / m - cos m)` for `Quadratic` with `m = 6 π d / 5`.
Unknown names get the junk value `0` (the refinement theorem is restricted to
the four supported names). -/
noncomputable def specWeight (kernel : String) (band lag : ℕ) : ℝ :=
  let a : ℝ := ((lag : ℝ) + 1) / ((band : ℝ) + 1)
  let d : ℝ := ((lag : ℝ) + 1) / (band : ℝ)
  let m : ℝ := 6 * Real.pi * d / 5
  if kernel = "SU" then 0
  else if kernel = "Bartlett" then (if a ≤ 1 then 1 - a else 0)
  else if kernel = "Parzen" then
    (if a ≤ 1 / 2 then 1 - 6 * d ^ 2 * (1 - a)
      else if a ≤ 1 then 2 * (1 - a) ^ 3 else 0)
  else if kernel = "Quadratic" then
    25 / (12 * (d * Real.pi) ^ 2) * (Real.sin m / m - Real.cos m)
  else 0

/-- Specification-side HAC covariance (spec.md §4.2, step 4):
`S = Γ0 + Σ_{l<b} w(l) (Γ_l + Γ_lᵀ)` of the column-demeaned input. -/
noncomputable def specS (T : ℕ) (v : Mat) (kernel : String) (band : ℕ) : Mat :=
  let dv := demean T v
  fun i j => gamma0 T dv i j +
    ∑ l ∈ Finset.range band,
      specWeight kernel band l * (gammaLag T dv l i j + gammaLag T dv l j i)

/-- Specification-side `WeightMatrixEstimator.compute` (spec.md §4.3): the
pseudo-inverse of the HAC covariance of the moments evaluated at `theta`. -/
noncomputable def specWeightMatrix (p : Externals) (kernel : String) (band : ℕ)
    (theta : List ℝ) : Mat :=
  let mv := p.moment theta
  p.pinv (specS mv.T mv.g kernel band)

/-- Specification-side loop iterate of claim C1: `specIter p s0 n` is the pair
`(theta, W)` after loop steps `0 .. n`.  Step 0 minimizes under the initial
identity weighting matrix; step `i > 0` first replaces `W` with the optimal
weighting matrix at the previous estimate and then minimizes under it; after
each minimization the parameter vector is the minimizer's argmin. -/
noncomputable def specIter (p : Externals) (s0 : GMM) : ℕ → List ℝ × Mat
  | 0 => (p.minimizer (objVal p (eyeMat s0.q)) s0.theta, eyeMat s0.q)
  | n + 1 =>
    let prev := specIter p s0 n
    let W := specWeightMatrix p s0.kernel s0.band prev.1
    (p.minimizer (objVal p W) prev.1, W)

/-- Specification-side `VarianceEstimator.compute` (spec.md §4.6):
`V = pinv(dgᵀ S dg) / T` with `S` the optimal weighting matrix at `theta`. -/
noncomputable def specVar (p : Externals) (kernel : String) (band T0 : ℕ)
    (theta : List ℝ) : Mat :=
  let mv := p.moment theta
  let S := specWeightMatrix p kernel band theta
  fun a b => p.pinv (dgtSdg mv.q mv.dg S) a b / (T0 : ℝ)

/-- Specification-side finalisation of claim C1: after the loop,
`J = T × f(theta)` at the final `theta` and `W`; `p-value = 1 - χ²cdf(J, q-k)`;
`se = sqrt(diag V)` element-wise; `t = theta / se` element-wise. -/
noncomputable def specResult (p : Externals) (s0 : GMM) : EstimationResult :=
  let fin := specIter p s0 (s0.iter - 1)
  let J := (s0.T : ℝ) * objVal p fin.2 fin.1
  let V := specVar p s0.kernel s0.band s0.T fin.1
  let se : ℕ → ℝ := fun j => Real.sqrt (V j j)
  { theta := fin.1, J := J,
    pval := 1 - p.chi2cdf J ((s0.q : ℤ) - (s0.k : ℤ)),
    se := se, t := fin.1.mapIdx (fun j x => x / se j) }

/-! ## Helper lemmas -/

/-- The four kernel names the source implements. -/
def knownKernel (kernel : String) : Prop :=
  kernel = "SU" ∨ kernel = "Bartlett" ∨ kernel = "Parzen" ∨ kernel = "Quadratic"

lemma kernelWeight_known (kernel : String) (band lag : ℕ) (h : knownKernel kernel) :
    kernelWeight kernel band lag = Except.ok (specWeight kernel band lag) := by
  rcases h with h | h | h | h <;> subst h <;> simp [kernelWeight, specWeight]

lemma hacSum_known (T : ℕ) (kernel : String) (band : ℕ) (v : Mat)
    (h : knownKernel kernel) (n : ℕ) :
    hacSum T kernel band v n =
      Except.ok (fun i j => gamma0 T v i j +
        ∑ l ∈ Finset.range n,
          specWeight kernel band l * (gammaLag T v l i j + gammaLag T v l j i)) := by
  induction n with
  | zero =>
    unfold hacSum
    congr 1
    funext i j
    simp
  | succ n ih =>
    unfold hacSum
    rw [ih, kernelWeight_known kernel band n h]
    dsimp only
    congr 1
    funext i j
    rw [Finset.sum_range_succ]
    ring

lemma hac_known (T : ℕ) (v : Mat) (kernel : String) (band : ℕ) (h : knownKernel kernel) :
    hac T v kernel (some band) = Except.ok (demean T v, specS T v kernel band) := by
  simp only [hac, specS, Option.getD_some]
  rw [hacSum_known T kernel band (demean T v) h]

lemma weights_known (p : Externals) (s : GMM) (theta : List ℝ) (h : knownKernel s.kernel) :
    weights p s theta = Except.ok (specWeightMatrix p s.kernel s.band theta) := by
  simp only [weights, specWeightMatrix]
  rw [hac_known _ _ _ _ h]

lemma varest_known (p : Externals) (s : GMM) (theta : List ℝ) (h : knownKernel s.kernel) :
    varest p s theta = Except.ok (specVar p s.kernel s.band s.T theta) := by
  simp only [varest, specVar]
  rw [weights_known p s theta h]

lemma gmmLoop_spec (p : Externals) (s0 : GMM)
    (hW : s0.W = eyeMat s0.q) (hker : knownKernel s0.kernel) (n : ℕ) :
    gmmLoop p s0 (n + 1) =
      Except.ok { s0 with
        theta := (specIter p s0 n).1,
        W := (specIter p s0 n).2,
        res := some ((specIter p s0 n).1,
          objVal p (specIter p s0 n).2 (specIter p s0 n).1) } := by
  induction n with
  | zero =>
    show gmmStep p s0 0 = _
    unfold gmmStep
    rw [if_neg (lt_irrefl 0)]
    dsimp only [specIter]
    rw [hW]
  | succ n ih =>
    unfold gmmLoop
    rw [ih]
    dsimp only
    unfold gmmStep
    rw [if_pos (Nat.succ_pos n)]
    rw [weights_known p _ _ (by exact hker)]
    dsimp only
    simp only [specIter]

theorem c1_check (p : Externals) (s0 : GMM)
    (hW : s0.W = eyeMat s0.q)
    (hdf : s0.df = (s0.q : ℤ) - (s0.k : ℤ))
    (hker : knownKernel s0.kernel)
    (hsteps : 1 ≤ s0.iter) :
    gmmest p s0 = Except.ok (specResult p s0) := by
  obtain ⟨n, hn⟩ : ∃ n, s0.iter = n + 1 := ⟨s0.iter - 1, by omega⟩
  unfold gmmest specResult
  rw [hn, gmmLoop_spec p s0 hW hker n]
  dsimp only
  rw [varest_known p _ _ (by exact hker)]
  dsimp only
  simp only [Nat.add_sub_cancel]
  rw [hdf]
  simp [Except.ok.injEq, EstimationResult.mk.injEq, mul_comm]

lemma kernelWeight_unknown (kernel : String) (band lag : ℕ) (hk : ¬ knownKernel kernel) :
    kernelWeight kernel band lag = Except.error GMMError.unsupportedKernel := by
  unfold knownKernel at hk
  push_neg at hk
  obtain ⟨h1, h2, h3, h4⟩ := hk
  unfold kernelWeight
  rw [if_neg h1, if_neg h2, if_neg h3, if_neg h4]

lemma hacSum_unknown (T : ℕ) (kernel : String) (band : ℕ) (v : Mat)
    (hk : ¬ knownKernel kernel) (n : ℕ) :
    hacSum T kernel band v (n + 1) = Except.error GMMError.unsupportedKernel := by
  induction n with
  | zero =>
    dsimp only [hacSum]
    rw [kernelWeight_unknown kernel band 0 hk]
  | succ n ih =>
    unfold hacSum
    rw [ih]

/-! ## Claim theorems -/

/-- C2: for every `T × q` input matrix, every supported kernel name and every
bandwidth `b ≥ 0`, `hac` column-demeans the input (leaving the demeaned matrix
in the caller's buffer), takes `Γ0` as the sample covariance of the demeaned
series, and returns `S = Γ0 + Σ_{l<b} w(l) (Γ_l + Γ_lᵀ)` with the
kernel-specific weights of `specWeight` and the shifted cross-products
`gammaLag`. -/
theorem c2_hac_formula (T : ℕ) (v : Mat) (kernel : String) (b : ℕ)
    (h : knownKernel kernel) :
    hac T v kernel (some b) = Except.ok (demean T v, specS T v kernel b) :=
  hac_known T v kernel b h

/-- C3: for every parameter vector and weighting matrix, a non-negative
objective evaluation returns `f = b̄ᵀ W b̄` built from the row-mean `b̄` of the
moment matrix, together with the gradient `2 b̄ᵀ W dg` exactly when gradient
usage is enabled, and `f` alone when it is disabled. -/
theorem c3_objective_value_and_gradient (p : Externals) (s : GMM) (theta : List ℝ)
    (h : 0 ≤ objVal p s.W theta) :
    gmmobjective p s theta =
      Except.ok (objVal p s.W theta,
        if s.use_jacob then some (gradVec p s.W theta) else none) ∧
    (∀ j, bbar p theta j =
      (∑ t ∈ Finset.range (p.moment theta).T, (p.moment theta).g t j) /
        ((p.moment theta).T : ℝ)) ∧
    objVal p s.W theta =
      ∑ i ∈ Finset.range (p.moment theta).q, ∑ j ∈ Finset.range (p.moment theta).q,
        bbar p theta i * s.W i j * bbar p theta j ∧
    (∀ j, gradVec p s.W theta j =
      2 * ∑ l ∈ Finset.range (p.moment theta).q,
        (∑ i ∈ Finset.range (p.moment theta).q, bbar p theta i * s.W i l) *
          (p.moment theta).dg l j) := by
  refine ⟨?_, fun j => rfl, rfl, fun j => rfl⟩
  unfold gmmobjective
  rw [if_neg (not_lt.2 h)]
  cases h2 : s.use_jacob <;> simp [h2]

/-- C7: with bandwidth 0 the lag loop contributes nothing: for every input and
every kernel name (even an unsupported one), `hac` returns exactly `Γ0`, the
sample covariance of the column-demeaned input. -/
theorem c7_bandwidth_zero (T : ℕ) (v : Mat) (kernel : String) :
    hac T v kernel (some 0) = Except.ok (demean T v, gamma0 T (demean T v)) := rfl

/-- C8: a negative objective value is surfaced as an `InvariantViolation`
error rather than clamped, and a non-negative one returns normally. -/
theorem c8_negative_objective_raises (p : Externals) (s : GMM) (theta : List ℝ) :
    (objVal p s.W theta < 0 →
      gmmobjective p s theta = Except.error GMMError.invariantViolation) ∧
    (0 ≤ objVal p s.W theta → (gmmobjective p s theta).isOk = true) := by
  constructor
  · intro h
    unfold gmmobjective
    rw [if_pos h]
  · intro h
    unfold gmmobjective
    rw [if_neg (not_lt.2 h)]
    cases h2 : s.use_jacob <;> simp [h2, Except.isOk, Except.toBool]

/-- C4: whenever the optimal weighting matrix `S = weights(theta)` is
available, the variance estimator returns exactly
`pinv(dgᵀ S dg) / T`, with `dg` the Jacobian of the moment model at `theta`.
Nothing here restricts `k`, so the degenerate `k = 1` case is included (the
witness instantiates it). -/
theorem c4_variance_sandwich (p : Externals) (s : GMM) (theta : List ℝ) (S : Mat)
    (hS : weights p s theta = Except.ok S) :
    varest p s theta =
      Except.ok (fun a b =>
        p.pinv (dgtSdg (p.moment theta).q (p.moment theta).dg S) a b / (s.T : ℝ)) := by
  simp only [varest]
  rw [hS]

/-- C9: the default HAC bandwidth is `floor(T^(1/3))` — the floor of the real
cube root of the sample size — both as the bandwidth `__init__` configures and
as the bandwidth `hac` falls back to when its `band` argument is absent. -/
theorem c9_default_bandwidth :
    (∀ (p : Externals) (theta : List ℝ) (s : GMM), gmmInit p theta = Except.ok s →
      0 < s.T ∧ s.band = Nat.floor ((s.T : ℝ) ^ ((1 : ℝ) / 3))) ∧
    (∀ (T : ℕ) (v : Mat) (kernel : String),
      hac T v kernel none = hac T v kernel (some (Nat.floor ((T : ℝ) ^ ((1 : ℝ) / 3))))) := by
  constructor
  · intro p theta s hs
    simp only [gmmInit] at hs
    split_ifs at hs with h1 h2 h3
    · rw [Except.ok.injEq] at hs
      subst hs
      exact ⟨h1, rfl⟩
  · intro T v kernel
    rfl

/-- C10: `hac` hands back the caller's buffer with its contents replaced by
the column-demeaned input — every entry of the returned buffer is the original
entry minus its column mean — modelling numpy's in-place `vectors -= vectors.mean(0)`. -/
theorem c10_input_buffer_demeaned (T : ℕ) (v : Mat) (kernel : String)
    (band : Option ℕ) (r : Mat × Mat) (h : hac T v kernel band = Except.ok r) :
    r.1 = demean T v ∧
    ∀ t j, r.1 t j = v t j - (∑ u ∈ Finset.range T, v u j) / (T : ℝ) := by
  simp only [hac] at h
  split at h
  · exact Except.noConfusion h
  · rw [Except.ok.injEq] at h
    subst h
    exact ⟨rfl, fun t j => rfl⟩

/-- C5 as stated is refuted by `c5_ctrex`: the Jacobian-shape check precedes
the degrees-of-freedom check, so a configuration with `q ≤ k` and a mismatched
parameter length fails with the dimension error, not the configuration error.
Amended claim: provided the first moment evaluation has `T > 0`, a Jacobian
column count different from the parameter length fails with `DimensionError`
(taking precedence), and with matching lengths `q ≤ k` fails with
`ConfigurationError`; in either case construction performs no optimization
calls (the result does not depend on the minimizer at all). -/
theorem c5_construction_validation (p : Externals) (theta : List ℝ)
    (hT : 0 < (p.moment theta).T) :
    ((p.moment theta).k ≠ theta.length →
      gmmInit p theta = Except.error GMMError.dimensionError) ∧
    ((p.moment theta).k = theta.length → (p.moment theta).q ≤ (p.moment theta).k →
      gmmInit p theta = Except.error GMMError.configurationError) ∧
    (∀ f, gmmInit { p with minimizer := f } theta = gmmInit p theta) := by
  refine ⟨?_, ?_, fun f => rfl⟩
  · intro hk
    simp only [gmmInit]
    rw [if_pos hT, if_neg hk]
  · intro hk hq
    simp only [gmmInit]
    rw [if_pos hT, if_pos hk, if_neg (by omega)]

/-- C6 as stated is refuted by `c6_ctrex`: with bandwidth 0 an unrecognized
kernel name raises nothing at all, and `hac` returns `Γ0` of the demeaned
input.  Amended claim: an unrecognized kernel name makes `hac` fail with
`UnsupportedKernelError` exactly when the bandwidth is at least 1 — the check
sits inside the lag loop, so it fires only after the input has been demeaned
and the base covariance formed — while with bandwidth 0 the computation
succeeds and returns `Γ0`. -/
theorem c6_unknown_kernel (T : ℕ) (v : Mat) (kernel : String) (b : ℕ)
    (hk : ¬ knownKernel kernel) :
    (1 ≤ b → hac T v kernel (some b) = Except.error GMMError.unsupportedKernel) ∧
    hac T v kernel (some 0) = Except.ok (demean T v, gamma0 T (demean T v)) := by
  refine ⟨?_, rfl⟩
  intro hb
  obtain ⟨n, rfl⟩ : ∃ n, b = n + 1 := ⟨b - 1, by omega⟩
  simp only [hac, Option.getD_some]
  rw [hacSum_unknown T kernel (n + 1) (demean T v) hk n]

/-! ## Concrete instances for counterexamples and witnesses -/

/-- A degenerate moment model: `T = 1`, `q = 1`, `k = 1`, zero moments. -/
noncomputable def momentCE : List ℝ → MomentValue := fun _ =>
  { T := 1, q := 1, k := 1, g := fun _ _ => 0, dg := fun _ _ => 0 }

/-- Concrete externals around `momentCE`; `pinv` is the identity map on
matrices and the minimizer returns its starting point. -/
noncomputable def pCE : Externals :=
  { moment := momentCE, pinv := fun M => M, chi2cdf := fun _ _ => 0,
    minimizer := fun _ x => x }

/-- A moment model with one nonzero moment condition: `T = 1`, `q = 1`,
`k = 1`, all entries 1. -/
noncomputable def momentOne : List ℝ → MomentValue := fun _ =>
  { T := 1, q := 1, k := 1, g := fun _ _ => 1, dg := fun _ _ => 1 }

/-- Externals around `momentOne`. -/
noncomputable def pOne : Externals := { pCE with moment := momentOne }

/-- An overidentified moment model: `T = 1`, `q = 2`, `k = 1`, zero moments. -/
noncomputable def momentQ2 : List ℝ → MomentValue := fun _ =>
  { T := 1, q := 2, k := 1, g := fun _ _ => 0, dg := fun _ _ => 0 }

/-- Externals around `momentQ2`. -/
noncomputable def pQ2 : Externals := { pCE with moment := momentQ2 }

/-- The state `gmmInit pQ2 [0]` produces. -/
noncomputable def sQ2 : GMM :=
  { T := 1, q := 2, k := 1, df := ((2 : ℕ) : ℤ) - ((1 : ℕ) : ℤ), theta := [0],
    W := eyeMat 2, iter := 2, method := "BFGS", disp := true, use_jacob := true,
    kernel := "Bartlett", band := defaultBand 1, res := none }

/-- A concrete GMM state over `pCE`: the unit weighting matrix `W ≡ 1` on the
single moment, kernel `SU`, bandwidth 0. -/
noncomputable def sCE : GMM :=
  { T := 1, q := 1, k := 1, df := 0, theta := [0], W := fun _ _ => 1, iter := 2,
    method := "BFGS", disp := true, use_jacob := true, kernel := "SU", band := 0,
    res := none }

/-- State `sCE` with the weighting matrix `W ≡ -1`, which makes the objective
negative under `momentOne`. -/
noncomputable def sNeg : GMM := { sCE with W := fun _ _ => -1 }

/-- A concrete 2-row input matrix, identically zero. -/
noncomputable def vCE : Mat := fun _ _ => 0

/-! ## Counterexamples and witnesses -/

/-- Counterexample to C5 as stated: a configuration whose first moment
evaluation has `q ≤ k` but whose construction fails with the dimension error,
not the configuration error, because the Jacobian-shape assert fires first. -/
theorem c5_ctrex :
    (pCE.moment [(0 : ℝ), 0]).q ≤ (pCE.moment [(0 : ℝ), 0]).k ∧
    gmmInit pCE [(0 : ℝ), 0] = Except.error GMMError.dimensionError ∧
    GMMError.dimensionError ≠ GMMError.configurationError :=
  ⟨Nat.le_refl 1, rfl, by decide⟩

/-- Witness for `c5_construction_validation` at concrete inputs: the two error
branches at `T = 1 > 0`. -/
theorem c5_witness :
    gmmInit pCE [(0 : ℝ), 0] = Except.error GMMError.dimensionError ∧
    gmmInit pCE [(0 : ℝ)] = Except.error GMMError.configurationError :=
  ⟨(c5_construction_validation pCE [(0 : ℝ), 0] (by decide)).1 (by decide),
   (c5_construction_validation pCE [(0 : ℝ)] (by decide)).2.1 (by decide) (by decide)⟩

/-- Counterexample to C6 as stated: with bandwidth 0 the unrecognized kernel
name "Gaussian" raises no error at all — `hac` happily demeans, forms `Γ0`
and returns it. -/
theorem c6_ctrex :
    ¬ knownKernel "Gaussian" ∧
    hac 2 vCE "Gaussian" (some 0) =
      Except.ok (demean 2 vCE, gamma0 2 (demean 2 vCE)) :=
  ⟨by simp [knownKernel], rfl⟩

/-- Witness for `c6_unknown_kernel` at concrete inputs. -/
theorem c6_witness :
    hac 2 vCE "Gaussian" (some 1) = Except.error GMMError.unsupportedKernel :=
  (c6_unknown_kernel 2 vCE "Gaussian" 1 (by simp [knownKernel])).1 (by decide)

/-- Witness for `c1_check` at a concrete problem and state. -/
theorem c1_witness :
    gmmest pQ2 sQ2 = Except.ok (specResult pQ2 sQ2) :=
  c1_check pQ2 sQ2 rfl rfl (Or.inr (Or.inl rfl)) (by decide)

/-- Witness for `c2_hac_formula` at a concrete input. -/
theorem c2_witness :
    hac 2 vCE "Bartlett" (some 1) =
      Except.ok (demean 2 vCE, specS 2 vCE "Bartlett" 1) :=
  c2_hac_formula 2 vCE "Bartlett" 1 (Or.inr (Or.inl rfl))

/-- Witness for `c3_objective_value_and_gradient` at a concrete input whose
objective value is `0 ≥ 0`. -/
theorem c3_witness :
    gmmobjective pCE sCE [(0 : ℝ)] =
      Except.ok (objVal pCE sCE.W [(0 : ℝ)],
        if sCE.use_jacob then some (gradVec pCE sCE.W [(0 : ℝ)]) else none) := by
  have h : (0 : ℝ) ≤ objVal pCE sCE.W [(0 : ℝ)] := by
    simp [objVal, bbar, pCE, momentCE]
  exact (c3_objective_value_and_gradient pCE sCE [(0 : ℝ)] h).1

/-- Witness for `c4_variance_sandwich` at a concrete input with `k = 1`. -/
theorem c4_witness :
    varest pCE sCE [(0 : ℝ)] =
      Except.ok (fun a b =>
        pCE.pinv (dgtSdg (pCE.moment [(0 : ℝ)]).q (pCE.moment [(0 : ℝ)]).dg
          (pCE.pinv (gamma0 1 (demean 1 (pCE.moment [(0 : ℝ)]).g)))) a b /
        ((sCE.T : ℕ) : ℝ)) :=
  c4_variance_sandwich pCE sCE [(0 : ℝ)]
    (pCE.pinv (gamma0 1 (demean 1 (pCE.moment [(0 : ℝ)]).g))) rfl

/-- Witness for `c8_negative_objective_raises`: a negative quadratic form
(mean moment 1 under `W ≡ -1`) raises, a non-negative one returns. -/
theorem c8_witness :
    gmmobjective pOne sNeg [(0 : ℝ)] = Except.error GMMError.invariantViolation ∧
    (gmmobjective pCE sCE [(0 : ℝ)]).isOk = true := by
  have hneg : objVal pOne sNeg.W [(0 : ℝ)] < 0 := by
    simp [objVal, bbar, pOne, pCE, momentOne, sNeg, sCE]
  have hpos : (0 : ℝ) ≤ objVal pCE sCE.W [(0 : ℝ)] := by
    simp [objVal, bbar, pCE, momentCE]
  exact ⟨(c8_negative_objective_raises pOne sNeg [(0 : ℝ)]).1 hneg,
         (c8_negative_objective_raises pCE sCE [(0 : ℝ)]).2 hpos⟩

/-- Witness for `c9_default_bandwidth` at a concrete construction. -/
theorem c9_witness :
    0 < sQ2.T ∧ sQ2.band = Nat.floor ((sQ2.T : ℝ) ^ ((1 : ℝ) / 3)) :=
  c9_default_bandwidth.1 pQ2 [(0 : ℝ)] sQ2 rfl

/-- Witness for `c10_input_buffer_demeaned` at a concrete call. -/
theorem c10_witness :
    (demean 2 vCE, gamma0 2 (demean 2 vCE)).1 = demean 2 vCE :=
  (c10_input_buffer_demeaned 2 vCE "SU" (some 0)
    (demean 2 vCE, gamma0 2 (demean 2 vCE)) rfl).1
